import Mathlib

/-!
Verification of the anomaly-field retrieval and spatial slicing routine of
`streamlit_app.py` (functions `_open_ds`, `_standardize_anom_field`,
`list_available_times`, `load_anomaly`).

Modelling conventions:
* Timestamps, latitudes and longitudes are `Int` (e.g. a date written as
  `yyyymmdd`, which is order-isomorphic to calendar dates; only order and
  distance of timestamps matter to the code).
* An xarray `DataArray` is a labelled array: coordinate lists plus a lookup
  function from coordinates to values.  `Option Int` values model the
  missing-value markers (NaN) of the source data.
* `da.sel(lat=slice(lo, hi))` on an ascending coordinate axis keeps exactly
  the labels in the closed interval `[lo, hi]`, in axis order; it is modelled
  by `sel_slice`, a filter (the provider's axes are ascending).
* `da.sel(time=t, method="nearest")` with a pandas index picks an available
  timestamp of minimal absolute distance to `t` (pandas resolves an exact tie
  toward the later timestamp); it is modelled by `nearestAux`.
* Exceptions raised by `xarray`/`pandas` (unreachable endpoint, missing
  `anom` variable, missing or empty `time` coordinate) are modelled by
  `Except` with the spec's error taxonomy `DataError`; the source raises
  library exceptions which the spec names `DataUnavailable`.
* The vertical-level handling of `_standardize_anom_field` (select the first
  `zlev`/`depth`/`lev` level) is folded into the value lookup: `AnomVar.value`
  is the surface-level value at `(time, lat, lon)`.
-/

/-- Absolute distance between two integer timestamps. -/
def tdist (a b : Int) : Nat := (a - b).natAbs

/-- Nearest-neighbour scan over a list of available timestamps, keeping a
current best candidate.  Ties go to the later list element, matching pandas
nearest-indexing on an ascending index.  Models
`da.sel(time=target, method="nearest")` from `_standardize_anom_field`. -/
def nearestAux (target best : Int) : List Int → Int
  | [] => best
  | t :: ts => nearestAux target (if tdist t target ≤ tdist best target then t else best) ts

/-- `times.min()` over the nonempty list `t :: ts` (line 66 of the source). -/
def minTime (t : Int) (ts : List Int) : Int := ts.foldl min t

/-- `times.max()` over the nonempty list `t :: ts` (line 66 of the source). -/
def maxTime (t : Int) (ts : List Int) : Int := ts.foldl max t

/-- The time-clamping step of `_standardize_anom_field` (lines 66-70):
a target before `times.min()` becomes the minimum, after `times.max()`
becomes the maximum, otherwise it is unchanged. -/
def clampTime (target t : Int) (ts : List Int) : Int :=
  if target < minTime t ts then minTime t ts
  else if maxTime t ts < target then maxTime t ts
  else target

/-- Clamp then nearest-select: the full time resolution performed by
`_standardize_anom_field` (lines 65-71). -/
def resolveTime (target t : Int) (ts : List Int) : Int :=
  nearestAux (clampTime target t ts) t ts

/-- The `anom` variable of the dataset: its spatial axes and the
(surface-level) value lookup at `(time, lat, lon)`.  `none` values model the
missing-value markers of the source grid. -/
structure AnomVar where
  lats : List Int
  lons : List Int
  value : Int → Int → Int → Option Int

/-- A remote xarray dataset: the `anom` variable (absent when the response is
malformed) and the `time` coordinate (absent when the response is
malformed). -/
structure Dataset where
  anom : Option AnomVar
  times : Option (List Int)

/-- The remote provider as seen by `_open_ds`: what opening the bare URL
yields, and what opening `URL + ".nc"` yields (`none` = the open raises). -/
structure Provider where
  plain : Option Dataset
  withNc : Option Dataset

/-- `_open_ds` (lines 47-52): try the bare URL, on failure retry with the
`.nc` suffix; `none` means both attempts raise. -/
def open_ds (p : Provider) : Option Dataset :=
  match p.plain with
  | some ds => some ds
  | none => p.withNc

/-- The spec's error taxonomy (section 7).  The source itself raises plain
library exceptions; the spec names transport/structure failures
`DataUnavailable` and an empty spatial selection `EmptyRegion`. -/
inductive DataError
  | dataUnavailable
  | emptyRegion
deriving DecidableEq

/-- The field returned by `load_anomaly`: resolved timestamp, coordinate
axes, and the labelled value lookup. -/
structure GriddedAnomalyField where
  timestamp : Int
  lats : List Int
  lons : List Int
  vals : Int → Int → Option Int

/-- The 2-D `values` array of a field, one row per latitude and one column
per longitude, as xarray lays out the lat-by-lon slice. -/
def fieldValues (f : GriddedAnomalyField) : List (List (Option Int)) :=
  f.lats.map fun la => f.lons.map fun lo => f.vals la lo

/-- The field built by `_standardize_anom_field` from the `anom` variable and
nonempty time axis `t :: ts`: time resolved by clamp-plus-nearest, full
spatial axes, values looked up at the resolved time. -/
def stdField (av : AnomVar) (target t : Int) (ts : List Int) : GriddedAnomalyField :=
  { timestamp := resolveTime target t ts
    lats := av.lats
    lons := av.lons
    vals := fun la lo => av.value (resolveTime target t ts) la lo }

/-- `_standardize_anom_field` (lines 54-80): `ds["anom"]` raises when the
variable is missing; the time axis is read, the target clamped, and the
nearest available time selected.  An empty time axis makes the nearest
selection raise, so it is a failure as well. -/
def standardize_anom_field (ds : Dataset) (target : Int) : Except DataError GriddedAnomalyField :=
  match ds.anom, ds.times with
  | some av, some (t :: ts) => .ok (stdField av target t ts)
  | _, _ => .error .dataUnavailable

/-- The bounding box of the source (`bbox` tuple, line 102). -/
structure BoundingBox where
  lat_min : Int
  lat_max : Int
  lon_min : Int
  lon_max : Int

/-- `da.sel(axis=slice(lo, hi))` on an ascending axis: the labels in
`[lo, hi]`, in axis order. -/
def sel_slice (lo hi : Int) (xs : List Int) : List Int :=
  xs.filter fun x => decide (lo ≤ x ∧ x ≤ hi)

/-- The bbox slicing of `load_anomaly` (lines 100-109): restrict latitude to
`[lat_min, lat_max]`; restrict longitude either to `[lon_min, lon_max]`, or,
when `lon_min > lon_max` (antimeridian wraparound), to the concatenation of
the `[lon_min, 180]` and `[-180, lon_max]` slices. -/
def apply_bbox (b : BoundingBox) (f : GriddedAnomalyField) : GriddedAnomalyField :=
  if b.lon_min ≤ b.lon_max then
    { f with lats := sel_slice b.lat_min b.lat_max f.lats
             lons := sel_slice b.lon_min b.lon_max f.lons }
  else
    { f with lats := sel_slice b.lat_min b.lat_max f.lats
             lons := sel_slice b.lon_min 180 f.lons ++ sel_slice (-180) b.lon_max f.lons }

/-- `load_anomaly` (lines 94-112): open the dataset, standardize the anomaly
field at the requested date, then apply the optional bounding box. -/
def load_anomaly (p : Provider) (date : Int) (bbox : Option BoundingBox) :
    Except DataError GriddedAnomalyField :=
  match open_ds p with
  | none => .error .dataUnavailable
  | some ds =>
    match standardize_anom_field ds date with
    | .error e => .error e
    | .ok f =>
      match bbox with
      | none => .ok f
      | some b => .ok (apply_bbox b f)

/-- Fate of the dataset handle acquired by `_open_ds` during one call. -/
inductive HandleState
  | notAcquired
  | leaked
  | released
deriving DecidableEq

/-- `load_anomaly` with the handle's fate made explicit: `ds.close()` is the
last statement before `return` (line 111), so an exception raised by
`_standardize_anom_field` propagates before the handle is closed. -/
def load_anomaly_handle (p : Provider) (date : Int) (bbox : Option BoundingBox) :
    Except DataError GriddedAnomalyField × HandleState :=
  match open_ds p with
  | none => (.error .dataUnavailable, .notAcquired)
  | some ds =>
    match standardize_anom_field ds date with
    | .error e => (.error e, .leaked)
    | .ok f =>
      match bbox with
      | none => (.ok f, .released)
      | some b => (.ok (apply_bbox b f), .released)

/-- `list_available_times` (lines 86-92) with the handle's fate made
explicit: `ds["time"]` is read before `ds.close()`, so a missing time
coordinate raises before the handle is closed. -/
def list_available_times (p : Provider) : Except DataError (List Int) × HandleState :=
  match open_ds p with
  | none => (.error .dataUnavailable, .notAcquired)
  | some ds =>
    match ds.times with
    | none => (.error .dataUnavailable, .leaked)
    | some ts => (.ok ts, .released)

/-! ## Helper lemmas on the time-resolution machinery -/

lemma tdist_self (a : Int) : tdist a a = 0 := by simp [tdist]

lemma tdist_eq_zero {a b : Int} (h : tdist a b = 0) : a = b := by
  have : a - b = 0 := by simpa [tdist] using h
  linarith

lemma nearestAux_le_best (target best : Int) (ts : List Int) :
    tdist (nearestAux target best ts) target ≤ tdist best target := by
  induction ts generalizing best with
  | nil => simp [nearestAux]
  | cons a ts ih =>
    simp only [nearestAux]
    by_cases h : tdist a target ≤ tdist best target
    · simp only [if_pos h]
      exact le_trans (ih a) h
    · simp only [if_neg h]
      exact ih best

lemma nearestAux_le_mem (target best : Int) (ts : List Int) :
    ∀ x ∈ ts, tdist (nearestAux target best ts) target ≤ tdist x target := by
  induction ts generalizing best with
  | nil => simp
  | cons a ts ih =>
    intro x hx
    simp only [nearestAux]
    rcases List.mem_cons.mp hx with rfl | hx
    · by_cases h : tdist x target ≤ tdist best target
      · simp only [if_pos h]
        exact nearestAux_le_best target x ts
      · simp only [if_neg h]
        exact le_trans (nearestAux_le_best target best ts) (le_of_lt (lt_of_not_le h))
    · exact ih _ x hx

lemma nearestAux_mem (target best : Int) (ts : List Int) :
    nearestAux target best ts = best ∨ nearestAux target best ts ∈ ts := by
  induction ts generalizing best with
  | nil => left; rfl
  | cons a ts ih =>
    simp only [nearestAux]
    by_cases hc : tdist a target ≤ tdist best target
    · rw [if_pos hc]
      rcases ih a with h | h
      · exact Or.inr (List.mem_cons.mpr (Or.inl h))
      · exact Or.inr (List.mem_cons_of_mem _ h)
    · rw [if_neg hc]
      rcases ih best with h | h
      · exact Or.inl h
      · exact Or.inr (List.mem_cons_of_mem _ h)

lemma nearestAux_exact (target best : Int) (ts : List Int)
    (h : target = best ∨ target ∈ ts) : nearestAux target best ts = target := by
  apply tdist_eq_zero
  apply Nat.le_zero.mp
  rcases h with rfl | h
  · simpa [tdist_self] using nearestAux_le_best target target ts
  · simpa [tdist_self] using nearestAux_le_mem target best ts target h

lemma minTime_mem (t : Int) (ts : List Int) : minTime t ts ∈ t :: ts := by
  induction ts generalizing t with
  | nil => simp [minTime]
  | cons a ts ih =>
    have h := ih (min t a)
    simp only [minTime, List.foldl_cons] at *
    rcases List.mem_cons.mp h with h | h
    · rcases min_choice t a with hm | hm
      · rw [h, hm]; exact List.mem_cons_self _ _
      · rw [h, hm]; exact List.mem_cons_of_mem _ (List.mem_cons_self _ _)
    · exact List.mem_cons_of_mem _ (List.mem_cons_of_mem _ h)

lemma minTime_le (t : Int) (ts : List Int) : ∀ x ∈ t :: ts, minTime t ts ≤ x := by
  induction ts generalizing t with
  | nil =>
    intro x hx
    rcases List.mem_cons.mp hx with rfl | hx
    · simp [minTime]
    · simp at hx
  | cons a ts ih =>
    intro x hx
    have ihm := ih (min t a)
    simp only [minTime, List.foldl_cons]
    rcases List.mem_cons.mp hx with rfl | hx
    · exact le_trans (ihm _ (List.mem_cons_self _ _)) (min_le_left _ _)
    · rcases List.mem_cons.mp hx with rfl | hx
      · exact le_trans (ihm _ (List.mem_cons_self _ _)) (min_le_right _ _)
      · exact ihm x (List.mem_cons_of_mem _ hx)

lemma maxTime_mem (t : Int) (ts : List Int) : maxTime t ts ∈ t :: ts := by
  induction ts generalizing t with
  | nil => simp [maxTime]
  | cons a ts ih =>
    have h := ih (max t a)
    simp only [maxTime, List.foldl_cons] at *
    rcases List.mem_cons.mp h with h | h
    · rcases max_choice t a with hm | hm
      · rw [h, hm]; exact List.mem_cons_self _ _
      · rw [h, hm]; exact List.mem_cons_of_mem _ (List.mem_cons_self _ _)
    · exact List.mem_cons_of_mem _ (List.mem_cons_of_mem _ h)

lemma le_maxTime (t : Int) (ts : List Int) : ∀ x ∈ t :: ts, x ≤ maxTime t ts := by
  induction ts generalizing t with
  | nil =>
    intro x hx
    rcases List.mem_cons.mp hx with rfl | hx
    · simp [maxTime]
    · simp at hx
  | cons a ts ih =>
    intro x hx
    have ihm := ih (max t a)
    simp only [maxTime, List.foldl_cons]
    rcases List.mem_cons.mp hx with rfl | hx
    · exact le_trans (le_max_left _ _) (ihm _ (List.mem_cons_self _ _))
    · rcases List.mem_cons.mp hx with rfl | hx
      · exact le_trans (le_max_right _ _) (ihm _ (List.mem_cons_self _ _))
      · exact ihm x (List.mem_cons_of_mem _ hx)

lemma minTime_le_maxTime (t : Int) (ts : List Int) : minTime t ts ≤ maxTime t ts :=
  le_trans (minTime_le t ts t (List.mem_cons_self _ _)) (le_maxTime t ts t (List.mem_cons_self _ _))

lemma resolveTime_mem (target t : Int) (ts : List Int) : resolveTime target t ts ∈ t :: ts := by
  unfold resolveTime
  rcases nearestAux_mem (clampTime target t ts) t ts with h | h
  · rw [h]; exact List.mem_cons_self _ _
  · exact List.mem_cons_of_mem _ h

lemma resolveTime_clamp_low (target t : Int) (ts : List Int)
    (h : target < minTime t ts) : resolveTime target t ts = minTime t ts := by
  unfold resolveTime clampTime
  rw [if_pos h]
  exact nearestAux_exact _ t ts (List.mem_cons.mp (minTime_mem t ts))

lemma resolveTime_clamp_high (target t : Int) (ts : List Int)
    (h : maxTime t ts < target) : resolveTime target t ts = maxTime t ts := by
  unfold resolveTime clampTime
  rw [if_neg (not_lt.mpr (le_trans (minTime_le_maxTime t ts) (le_of_lt h))), if_pos h]
  exact nearestAux_exact _ t ts (List.mem_cons.mp (maxTime_mem t ts))

lemma resolveTime_exact (target t : Int) (ts : List Int)
    (h : target ∈ t :: ts) : resolveTime target t ts = target := by
  unfold resolveTime clampTime
  rw [if_neg (not_lt.mpr (minTime_le t ts target h)),
      if_neg (not_lt.mpr (le_maxTime t ts target h))]
  exact nearestAux_exact _ t ts (List.mem_cons.mp h)

lemma resolveTime_nearest (target t : Int) (ts : List Int)
    (h1 : minTime t ts ≤ target) (h2 : target ≤ maxTime t ts) :
    ∀ x ∈ t :: ts, tdist (resolveTime target t ts) target ≤ tdist x target := by
  intro x hx
  unfold resolveTime clampTime
  rw [if_neg (not_lt.mpr h1), if_neg (not_lt.mpr h2)]
  rcases List.mem_cons.mp hx with rfl | hx
  · exact nearestAux_le_best target x ts
  · exact nearestAux_le_mem target t ts x hx

/-! ## Helper lemmas on the pipeline -/

lemma standardize_eq (ds : Dataset) (target t : Int) (ts : List Int) (av : AnomVar)
    (hav : ds.anom = some av) (hts : ds.times = some (t :: ts)) :
    standardize_anom_field ds target = .ok (stdField av target t ts) := by
  unfold standardize_anom_field
  rw [hav, hts]

lemma load_anomaly_ok_none (p : Provider) (d : Int) (ds : Dataset) (av : AnomVar)
    (t : Int) (ts : List Int) (f : GriddedAnomalyField)
    (hds : open_ds p = some ds) (hav : ds.anom = some av) (hts : ds.times = some (t :: ts))
    (hok : load_anomaly p d none = .ok f) : f = stdField av d t ts := by
  simp only [load_anomaly, hds, standardize_eq ds d t ts av hav hts,
    Except.ok.injEq] at hok
  exact hok.symm

lemma load_anomaly_ok_some (p : Provider) (d : Int) (b : BoundingBox) (ds : Dataset)
    (av : AnomVar) (t : Int) (ts : List Int) (f : GriddedAnomalyField)
    (hds : open_ds p = some ds) (hav : ds.anom = some av) (hts : ds.times = some (t :: ts))
    (hok : load_anomaly p d (some b) = .ok f) : f = apply_bbox b (stdField av d t ts) := by
  simp only [load_anomaly, hds, standardize_eq ds d t ts av hav hts,
    Except.ok.injEq] at hok
  exact hok.symm

lemma mem_sel_slice {lo hi x : Int} {xs : List Int} :
    x ∈ sel_slice lo hi xs ↔ x ∈ xs ∧ (lo ≤ x ∧ x ≤ hi) := by
  simp [sel_slice, List.mem_filter]

lemma sel_slice_sorted {lo hi : Int} {xs : List Int} (h : xs.Sorted (· < ·)) :
    (sel_slice lo hi xs).Sorted (· < ·) :=
  List.Pairwise.filter _ h

lemma sorted_lt_nodup {xs : List Int} (h : xs.Sorted (· < ·)) : xs.Nodup :=
  List.Pairwise.imp (fun hab => ne_of_lt hab) h

lemma apply_bbox_lats (b : BoundingBox) (f : GriddedAnomalyField) :
    (apply_bbox b f).lats = sel_slice b.lat_min b.lat_max f.lats := by
  unfold apply_bbox
  split <;> rfl

lemma apply_bbox_timestamp (b : BoundingBox) (f : GriddedAnomalyField) :
    (apply_bbox b f).timestamp = f.timestamp := by
  unfold apply_bbox
  split <;> rfl

lemma apply_bbox_lons_le (b : BoundingBox) (f : GriddedAnomalyField)
    (h : b.lon_min ≤ b.lon_max) :
    (apply_bbox b f).lons = sel_slice b.lon_min b.lon_max f.lons := by
  unfold apply_bbox
  rw [if_pos h]

lemma apply_bbox_lons_wrap (b : BoundingBox) (f : GriddedAnomalyField)
    (h : ¬ b.lon_min ≤ b.lon_max) :
    (apply_bbox b f).lons =
      sel_slice b.lon_min 180 f.lons ++ sel_slice (-180) b.lon_max f.lons := by
  unfold apply_bbox
  rw [if_neg h]

lemma load_anomaly_timestamp (p : Provider) (d : Int) (ob : Option BoundingBox)
    (ds : Dataset) (av : AnomVar) (t : Int) (ts : List Int) (f : GriddedAnomalyField)
    (hds : open_ds p = some ds) (hav : ds.anom = some av) (hts : ds.times = some (t :: ts))
    (hok : load_anomaly p d ob = .ok f) : f.timestamp = resolveTime d t ts := by
  cases ob with
  | none =>
    rw [load_anomaly_ok_none p d ds av t ts f hds hav hts hok]
    rfl
  | some b =>
    rw [load_anomaly_ok_some p d b ds av t ts f hds hav hts hok, apply_bbox_timestamp]
    rfl

lemma standardize_cases (ds : Dataset) (d : Int) :
    (∃ av t ts, ds.anom = some av ∧ ds.times = some (t :: ts) ∧
      standardize_anom_field ds d = .ok (stdField av d t ts)) ∨
    ((ds.anom = none ∨ ds.times = none ∨ ds.times = some []) ∧
      standardize_anom_field ds d = .error .dataUnavailable) := by
  rcases ds with ⟨anom, times⟩
  rcases anom with _ | av
  · exact Or.inr ⟨Or.inl rfl, rfl⟩
  · rcases times with _ | ts
    · exact Or.inr ⟨Or.inr (Or.inl rfl), rfl⟩
    · rcases ts with _ | ⟨t, ts⟩
      · exact Or.inr ⟨Or.inr (Or.inr rfl), rfl⟩
      · exact Or.inl ⟨av, t, ts, rfl, rfl, rfl⟩

/-! ## Concrete fixtures used by the witnesses -/

/-- A global one-degree latitude axis, `-90 … 90`. -/
def gLats : List Int := (List.range 181).map fun n => (n : Int) - 90

/-- A global one-degree longitude axis, `-180 … 179`. -/
def gLons : List Int := (List.range 360).map fun n => (n : Int) - 180

/-- Available timestamps after the first one, dates written `yyyymmdd`. -/
def gTimesTail : List Int := [19900101, 20230715, 20250601]

/-- A global anomaly variable with a constant value. -/
def gAV : AnomVar := ⟨gLats, gLons, fun _ _ _ => some 1⟩

/-- A healthy dataset covering 1981-09-01 through 2025-06-01. -/
def gDS : Dataset := ⟨some gAV, some (19810901 :: gTimesTail)⟩

/-- A provider whose bare URL opens the healthy global dataset. -/
def gProv : Provider := ⟨some gDS, none⟩

/-- A small latitude axis. -/
def sLats : List Int := [0, 10]

/-- A small longitude axis spanning the antimeridian ends. -/
def sLons : List Int := [-180, -170, 0, 170, 180]

/-- Small time axis tail. -/
def sTimesTail : List Int := [200, 300]

/-- A small anomaly variable. -/
def sAV : AnomVar := ⟨sLats, sLons, fun _ _ _ => some 2⟩

/-- A small healthy dataset. -/
def sDS : Dataset := ⟨some sAV, some (100 :: sTimesTail)⟩

/-- A provider serving the small dataset. -/
def sProv : Provider := ⟨some sDS, none⟩

/-- A dataset whose response is missing the `anom` variable. -/
def badDS : Dataset := ⟨none, some [100]⟩

/-- A provider serving the malformed dataset. -/
def badProv : Provider := ⟨some badDS, none⟩

/-- The East-Asia preset box `(5, 55, 105, 150)` from the source. -/
def eastAsiaBox : BoundingBox := ⟨5, 55, 105, 150⟩

/-- An antimeridian-crossing box with `lon_min = 170 > lon_max = -170`. -/
def wrapBox : BoundingBox := ⟨0, 10, 170, -170⟩

/-- A box whose latitude range `[200, 210]` meets no grid cell. -/
def emptyBox : BoundingBox := ⟨200, 210, 0, 10⟩

/-- Resolved timestamp of a `load_anomaly` result, when it succeeded. -/
def resTimestamp (r : Except DataError GriddedAnomalyField) : Option Int :=
  r.toOption.map GriddedAnomalyField.timestamp

/-- Number of grid cells of a `load_anomaly` result, when it succeeded. -/
def resCells (r : Except DataError GriddedAnomalyField) : Option Nat :=
  r.toOption.map fun f => f.lats.length * f.lons.length

/-! ## Claim theorems -/

/-- Claim C1: time clamping.  For every requested date earlier than the
dataset's minimum available time, `load_anomaly` returns a field whose time
coordinate equals that minimum time; for every requested date later than the
maximum, it returns a field stamped with the maximum available time. -/
theorem load_anomaly_time_clamping (p : Provider) (d : Int) (ob : Option BoundingBox)
    (ds : Dataset) (av : AnomVar) (t : Int) (ts : List Int) (f : GriddedAnomalyField)
    (hds : open_ds p = some ds) (hav : ds.anom = some av) (hts : ds.times = some (t :: ts))
    (hok : load_anomaly p d ob = .ok f) :
    (d < minTime t ts → f.timestamp = minTime t ts) ∧
    (maxTime t ts < d → f.timestamp = maxTime t ts) := by
  have htsp := load_anomaly_timestamp p d ob ds av t ts f hds hav hts hok
  constructor
  · intro h
    rw [htsp]
    exact resolveTime_clamp_low d t ts h
  · intro h
    rw [htsp]
    exact resolveTime_clamp_high d t ts h

/-- Witness for C1, the spec's concrete scenario: the dataset covers
1981-09-01 through 2025-06-01 and the request 1975-01-01 resolves to
1981-09-01. -/
theorem load_anomaly_time_clamping_witness :
    open_ds gProv = some gDS ∧ gDS.anom = some gAV ∧
    gDS.times = some (19810901 :: gTimesTail) ∧
    load_anomaly gProv 19750101 none = .ok (stdField gAV 19750101 19810901 gTimesTail) ∧
    (19750101 : Int) < minTime 19810901 gTimesTail ∧
    (stdField gAV 19750101 19810901 gTimesTail).timestamp = 19810901 := by
  refine ⟨rfl, rfl, rfl, rfl, by decide, ?_⟩
  have h := (load_anomaly_time_clamping gProv 19750101 none gDS gAV 19810901 gTimesTail
      (stdField gAV 19750101 19810901 gTimesTail) rfl rfl rfl rfl).1 (by decide)
  rw [h]
  decide

/-- Claim C3: no drift on exact match.  A requested date equal to an
available timestamp resolves to exactly that date; an in-range date resolves
to an available timestamp of minimal distance to the request. -/
theorem load_anomaly_no_drift (p : Provider) (d : Int) (ob : Option BoundingBox)
    (ds : Dataset) (av : AnomVar) (t : Int) (ts : List Int) (f : GriddedAnomalyField)
    (hds : open_ds p = some ds) (hav : ds.anom = some av) (hts : ds.times = some (t :: ts))
    (hok : load_anomaly p d ob = .ok f) :
    (d ∈ t :: ts → f.timestamp = d) ∧
    (minTime t ts ≤ d → d ≤ maxTime t ts →
      ∀ x ∈ t :: ts, tdist f.timestamp d ≤ tdist x d) := by
  have htsp := load_anomaly_timestamp p d ob ds av t ts f hds hav hts hok
  constructor
  · intro h
    rw [htsp]
    exact resolveTime_exact d t ts h
  · intro h1 h2 x hx
    rw [htsp]
    exact resolveTime_nearest d t ts h1 h2 x hx

/-- Witness for C3: requesting 2023-07-15, an exactly available step of the
global fixture, resolves to 2023-07-15 with no drift. -/
theorem load_anomaly_no_drift_witness :
    open_ds gProv = some gDS ∧ gDS.anom = some gAV ∧
    gDS.times = some (19810901 :: gTimesTail) ∧
    load_anomaly gProv 20230715 none = .ok (stdField gAV 20230715 19810901 gTimesTail) ∧
    (20230715 : Int) ∈ 19810901 :: gTimesTail ∧
    (stdField gAV 20230715 19810901 gTimesTail).timestamp = 20230715 := by
  refine ⟨rfl, rfl, rfl, rfl, by decide, ?_⟩
  exact (load_anomaly_no_drift gProv 20230715 none gDS gAV 19810901 gTimesTail
      (stdField gAV 20230715 19810901 gTimesTail) rfl rfl rfl rfl).1 (by decide)

/-- Claim C10: timestamp membership.  Every successful `load_anomaly` call
returns a field whose time coordinate is an element of the provider's
available time index, whether the request was inside, before, or after the
covered period. -/
theorem load_anomaly_timestamp_membership (p : Provider) (d : Int) (ob : Option BoundingBox)
    (ds : Dataset) (av : AnomVar) (t : Int) (ts : List Int) (f : GriddedAnomalyField)
    (hds : open_ds p = some ds) (hav : ds.anom = some av) (hts : ds.times = some (t :: ts))
    (hok : load_anomaly p d ob = .ok f) :
    f.timestamp ∈ t :: ts := by
  rw [load_anomaly_timestamp p d ob ds av t ts f hds hav hts hok]
  exact resolveTime_mem d t ts

/-- Witness for C10: a request far after the covered period still yields a
timestamp that is a member of the available time index. -/
theorem load_anomaly_timestamp_membership_witness :
    open_ds gProv = some gDS ∧ gDS.anom = some gAV ∧
    gDS.times = some (19810901 :: gTimesTail) ∧
    load_anomaly gProv 20990101 none = .ok (stdField gAV 20990101 19810901 gTimesTail) ∧
    (stdField gAV 20990101 19810901 gTimesTail).timestamp ∈ 19810901 :: gTimesTail := by
  refine ⟨rfl, rfl, rfl, rfl, ?_⟩
  exact load_anomaly_timestamp_membership gProv 20990101 none gDS gAV 19810901 gTimesTail
    (stdField gAV 20990101 19810901 gTimesTail) rfl rfl rfl rfl

/-- Claim C2: antimeridian wraparound.  For a bounding box with
`lon_min > lon_max`, the longitude axis of the returned field is the
`[lon_min, 180]` slice followed by the `[-180, lon_max]` slice of the
provider's axis; on an ascending axis it has no duplicated value, and it
contains exactly the axis points lying in the union of the two ranges
(no gap). -/
theorem load_anomaly_wraparound (p : Provider) (d : Int) (b : BoundingBox)
    (ds : Dataset) (av : AnomVar) (t : Int) (ts : List Int) (f : GriddedAnomalyField)
    (hds : open_ds p = some ds) (hav : ds.anom = some av) (hts : ds.times = some (t :: ts))
    (hb : b.lon_max < b.lon_min)
    (hok : load_anomaly p d (some b) = .ok f) :
    f.lons = sel_slice b.lon_min 180 av.lons ++ sel_slice (-180) b.lon_max av.lons ∧
    (av.lons.Sorted (· < ·) → f.lons.Nodup) ∧
    (∀ x : Int, x ∈ f.lons ↔ x ∈ av.lons ∧
      ((b.lon_min ≤ x ∧ x ≤ 180) ∨ (-180 ≤ x ∧ x ≤ b.lon_max))) := by
  have hf := load_anomaly_ok_some p d b ds av t ts f hds hav hts hok
  have hlons : f.lons = sel_slice b.lon_min 180 av.lons ++ sel_slice (-180) b.lon_max av.lons := by
    rw [hf, apply_bbox_lons_wrap b _ (not_le.mpr hb)]
    rfl
  refine ⟨hlons, ?_, ?_⟩
  · intro hs
    rw [hlons]
    refine List.Nodup.append (sorted_lt_nodup (sel_slice_sorted hs))
      (sorted_lt_nodup (sel_slice_sorted hs)) ?_
    intro x hx1 hx2
    have h1 := (mem_sel_slice.mp hx1).2.1
    have h2 := (mem_sel_slice.mp hx2).2.2
    exact lt_irrefl x (lt_of_le_of_lt h2 (lt_of_lt_of_le hb h1))
  · intro x
    rw [hlons]
    simp only [List.mem_append, mem_sel_slice]
    constructor
    · rintro (⟨hm, hr⟩ | ⟨hm, hr⟩)
      · exact ⟨hm, Or.inl hr⟩
      · exact ⟨hm, Or.inr hr⟩
    · rintro ⟨hm, hr | hr⟩
      · exact Or.inl ⟨hm, hr⟩
      · exact Or.inr ⟨hm, hr⟩

/-- Witness for C2: on the small fixture, the box `(170, -170)` yields the
axis `[170, 180] ++ [-180, -170]`, duplicate-free. -/
theorem load_anomaly_wraparound_witness :
    wrapBox.lon_max < wrapBox.lon_min ∧
    sAV.lons.Sorted (· < ·) ∧
    (apply_bbox wrapBox (stdField sAV 150 100 sTimesTail)).lons =
      sel_slice 170 180 sLons ++ sel_slice (-180) (-170) sLons ∧
    (apply_bbox wrapBox (stdField sAV 150 100 sTimesTail)).lons.Nodup := by
  have hs : sAV.lons.Sorted (· < ·) := by decide
  have H := load_anomaly_wraparound sProv 150 wrapBox sDS sAV 100 sTimesTail
    (apply_bbox wrapBox (stdField sAV 150 100 sTimesTail)) rfl rfl rfl (by decide) rfl
  exact ⟨by decide, hs, H.1, H.2.1 hs⟩

/-- Claim C4: bounding-box containment.  Every latitude of the returned
field lies in `[lat_min, lat_max]`; every longitude lies in
`[lon_min, lon_max]` when `lon_min ≤ lon_max`, and in one of the two
wraparound sub-ranges otherwise; without a bounding box the full spatial
domain is returned. -/
theorem load_anomaly_bbox_containment (p : Provider) (d : Int) (ob : Option BoundingBox)
    (ds : Dataset) (av : AnomVar) (t : Int) (ts : List Int) (f : GriddedAnomalyField)
    (hds : open_ds p = some ds) (hav : ds.anom = some av) (hts : ds.times = some (t :: ts))
    (hok : load_anomaly p d ob = .ok f) :
    (∀ b, ob = some b →
      (∀ la ∈ f.lats, b.lat_min ≤ la ∧ la ≤ b.lat_max) ∧
      (b.lon_min ≤ b.lon_max → ∀ lo ∈ f.lons, b.lon_min ≤ lo ∧ lo ≤ b.lon_max) ∧
      (b.lon_max < b.lon_min → ∀ lo ∈ f.lons,
        (b.lon_min ≤ lo ∧ lo ≤ 180) ∨ (-180 ≤ lo ∧ lo ≤ b.lon_max))) ∧
    (ob = none → f.lats = av.lats ∧ f.lons = av.lons) := by
  constructor
  · rintro b rfl
    have hf := load_anomaly_ok_some p d b ds av t ts f hds hav hts hok
    refine ⟨?_, ?_, ?_⟩
    · intro la hla
      rw [hf, apply_bbox_lats] at hla
      exact (mem_sel_slice.mp hla).2
    · intro hlon lo hlo
      rw [hf, apply_bbox_lons_le b _ hlon] at hlo
      exact (mem_sel_slice.mp hlo).2
    · intro hlon lo hlo
      rw [hf, apply_bbox_lons_wrap b _ (not_le.mpr hlon)] at hlo
      rcases List.mem_append.mp hlo with h | h
      · exact Or.inl (mem_sel_slice.mp h).2
      · exact Or.inr (mem_sel_slice.mp h).2
  · rintro rfl
    have hf := load_anomaly_ok_none p d ds av t ts f hds hav hts hok
    rw [hf]
    exact ⟨rfl, rfl⟩

/-- Witness for C4, the spec's East-Asia scenario: box `(5, 55, 105, 150)`
over the global fixture gives a non-empty field with latitudes in `[5, 55]`
and longitudes in `[105, 150]`. -/
theorem load_anomaly_bbox_containment_witness :
    open_ds gProv = some gDS ∧
    load_anomaly gProv 20230715 (some eastAsiaBox) =
      .ok (apply_bbox eastAsiaBox (stdField gAV 20230715 19810901 gTimesTail)) ∧
    ((apply_bbox eastAsiaBox (stdField gAV 20230715 19810901 gTimesTail)).lats.all
      fun la => decide (5 ≤ la ∧ la ≤ 55)) = true ∧
    ((apply_bbox eastAsiaBox (stdField gAV 20230715 19810901 gTimesTail)).lons.all
      fun lo => decide (105 ≤ lo ∧ lo ≤ 150)) = true ∧
    (apply_bbox eastAsiaBox (stdField gAV 20230715 19810901 gTimesTail)).lats ≠ [] ∧
    (apply_bbox eastAsiaBox (stdField gAV 20230715 19810901 gTimesTail)).lons ≠ [] := by
  have H := (load_anomaly_bbox_containment gProv 20230715 (some eastAsiaBox) gDS gAV
    19810901 gTimesTail (apply_bbox eastAsiaBox (stdField gAV 20230715 19810901 gTimesTail))
    rfl rfl rfl rfl).1 eastAsiaBox rfl
  refine ⟨rfl, rfl, ?_, ?_, by decide, by decide⟩
  · simp only [List.all_eq_true, decide_eq_true_eq]
    exact fun la hla => H.1 la hla
  · simp only [List.all_eq_true, decide_eq_true_eq]
    exact fun lo hlo => H.2.1 (by decide) lo hlo

/-- Claim C5: shape invariant.  The `values` array of every field returned
by `load_anomaly` is 2-D with one row per latitude and one entry per
longitude in each row. -/
theorem load_anomaly_shape_invariant (p : Provider) (d : Int) (ob : Option BoundingBox)
    (f : GriddedAnomalyField) (_hok : load_anomaly p d ob = .ok f) :
    (fieldValues f).length = f.lats.length ∧
    ∀ row ∈ fieldValues f, row.length = f.lons.length := by
  constructor
  · simp [fieldValues]
  · intro row hrow
    rcases List.mem_map.mp hrow with ⟨la, _, rfl⟩
    simp

/-- Witness for C5 on the small fixture, wraparound case included via the
box `(170, -170)`. -/
theorem load_anomaly_shape_invariant_witness :
    load_anomaly sProv 0 (some wrapBox) =
      .ok (apply_bbox wrapBox (stdField sAV 0 100 sTimesTail)) ∧
    (fieldValues (apply_bbox wrapBox (stdField sAV 0 100 sTimesTail))).length =
      (apply_bbox wrapBox (stdField sAV 0 100 sTimesTail)).lats.length ∧
    ((fieldValues (apply_bbox wrapBox (stdField sAV 0 100 sTimesTail))).all
      fun row => decide (row.length =
        (apply_bbox wrapBox (stdField sAV 0 100 sTimesTail)).lons.length)) = true := by
  refine ⟨rfl, ?_, by decide⟩
  exact (load_anomaly_shape_invariant sProv 0 (some wrapBox)
    (apply_bbox wrapBox (stdField sAV 0 100 sTimesTail)) rfl).1

/-- Counterexample for C6: on the global fixture, the box with latitude
range `[200, 210]` intersects no grid cell, yet `load_anomaly` does not
fail — it returns a field (with zero grid cells).  The claim that it "fails
with an EmptyRegion condition rather than returning a field" is false. -/
theorem load_anomaly_empty_region_counterexample :
    resCells (load_anomaly gProv 19900101 (some emptyBox)) = some 0 := by decide

/-- Claim C6 as amended: for a bounding box that intersects none of the
available grid cells, `load_anomaly` (against a healthy provider) still
succeeds and returns an empty field — zero grid points, no synthetic
substitution — rather than failing with an error. -/
theorem load_anomaly_empty_region_amended (p : Provider) (d : Int) (b : BoundingBox)
    (ds : Dataset) (av : AnomVar) (t : Int) (ts : List Int)
    (hds : open_ds p = some ds) (hav : ds.anom = some av) (hts : ds.times = some (t :: ts))
    (hempty : sel_slice b.lat_min b.lat_max av.lats = [] ∨
      (if b.lon_min ≤ b.lon_max then sel_slice b.lon_min b.lon_max av.lons
       else sel_slice b.lon_min 180 av.lons ++ sel_slice (-180) b.lon_max av.lons) = []) :
    load_anomaly p d (some b) = .ok (apply_bbox b (stdField av d t ts)) ∧
    (apply_bbox b (stdField av d t ts)).lats.length *
      (apply_bbox b (stdField av d t ts)).lons.length = 0 := by
  constructor
  · simp only [load_anomaly, hds, standardize_eq ds d t ts av hav hts]
  · rcases hempty with h | h
    · apply Nat.mul_eq_zero.mpr
      left
      rw [apply_bbox_lats]
      have hl : (stdField av d t ts).lats = av.lats := rfl
      rw [hl, h]
      rfl
    · apply Nat.mul_eq_zero.mpr
      right
      by_cases hlon : b.lon_min ≤ b.lon_max
      · rw [if_pos hlon] at h
        rw [apply_bbox_lons_le _ _ hlon]
        have hl : (stdField av d t ts).lons = av.lons := rfl
        rw [hl, h]
        rfl
      · rw [if_neg hlon] at h
        rw [apply_bbox_lons_wrap _ _ hlon]
        have hl : (stdField av d t ts).lons = av.lons := rfl
        rw [hl, h]
        rfl

/-- Witness for the amended C6 at the concrete empty box. -/
theorem load_anomaly_empty_region_amended_witness :
    (sel_slice emptyBox.lat_min emptyBox.lat_max gAV.lats = [] ∨
      (if emptyBox.lon_min ≤ emptyBox.lon_max
       then sel_slice emptyBox.lon_min emptyBox.lon_max gAV.lons
       else sel_slice emptyBox.lon_min 180 gAV.lons ++
         sel_slice (-180) emptyBox.lon_max gAV.lons) = []) ∧
    resCells (load_anomaly gProv 19810901 (some emptyBox)) = some 0 := by
  refine ⟨by decide, ?_⟩
  have H := load_anomaly_empty_region_amended gProv 19810901 emptyBox gDS gAV
    19810901 gTimesTail rfl rfl rfl (by decide)
  unfold resCells
  rw [H.1]
  exact congrArg some H.2

/-- Claim C7: DataUnavailable failures.  `load_anomaly` fails exactly when
the provider cannot be reached or the response is malformed (missing `anom`
variable, missing or empty `time` coordinate), and every failure surfaces as
the `DataUnavailable` kind — nothing else is swallowed. -/
theorem load_anomaly_failures (p : Provider) (d : Int) (ob : Option BoundingBox) :
    (∀ e, load_anomaly p d ob = .error e → e = DataError.dataUnavailable) ∧
    (load_anomaly p d ob = .error DataError.dataUnavailable ↔
      open_ds p = none ∨ ∃ ds, open_ds p = some ds ∧
        (ds.anom = none ∨ ds.times = none ∨ ds.times = some [])) := by
  constructor
  · intro e he
    rcases hop : open_ds p with _ | ds
    · simp only [load_anomaly, hop, Except.error.injEq] at he
      exact he.symm
    · rcases standardize_cases ds d with ⟨av, t, ts, _, _, hstd⟩ | ⟨_, hstd⟩
      · simp only [load_anomaly, hop, hstd] at he
        cases ob <;> simp at he
      · simp only [load_anomaly, hop, hstd, Except.error.injEq] at he
        exact he.symm
  · constructor
    · intro he
      rcases hop : open_ds p with _ | ds
      · exact Or.inl rfl
      · refine Or.inr ⟨ds, rfl, ?_⟩
        rcases standardize_cases ds d with ⟨av, t, ts, _, _, hstd⟩ | ⟨hcause, hstd⟩
        · exfalso
          simp only [load_anomaly, hop, hstd] at he
          cases ob <;> simp at he
        · exact hcause
    · intro hcause
      rcases hcause with hop | ⟨ds, hop, hcause⟩
      · simp only [load_anomaly, hop]
      · have hstd : standardize_anom_field ds d = .error .dataUnavailable := by
          rcases standardize_cases ds d with ⟨av, t, ts, hav, hts, _⟩ | ⟨_, hstd⟩
          · exfalso
            rcases hcause with h | h | h
            · rw [hav] at h; simp at h
            · rw [hts] at h; simp at h
            · rw [hts] at h; simp at h
          · exact hstd
        simp only [load_anomaly, hop, hstd]

/-- Witness for C7: a provider whose response is missing the `anom`
variable makes `load_anomaly` fail with `DataUnavailable`. -/
theorem load_anomaly_failures_witness :
    open_ds badProv = some badDS ∧ badDS.anom = none ∧
    load_anomaly badProv 0 none = .error DataError.dataUnavailable := by
  refine ⟨rfl, rfl, ?_⟩
  exact (load_anomaly_failures badProv 0 none).2.mpr (Or.inr ⟨badDS, rfl, Or.inl rfl⟩)

/-- Claim C8: determinism/idempotence.  Two `load_anomaly` calls with
identical `(target_date, bbox)` against an unchanged provider state return
fields with identical timestamp, latitudes, longitudes, and values. -/
theorem load_anomaly_idempotent (p : Provider) (d : Int) (ob : Option BoundingBox)
    (f1 f2 : GriddedAnomalyField)
    (h1 : load_anomaly p d ob = .ok f1) (h2 : load_anomaly p d ob = .ok f2) :
    f1.timestamp = f2.timestamp ∧ f1.lats = f2.lats ∧ f1.lons = f2.lons ∧
    fieldValues f1 = fieldValues f2 := by
  rw [h1, Except.ok.injEq] at h2
  rw [h2]
  exact ⟨rfl, rfl, rfl, rfl⟩

/-- Witness for C8 at a concrete call on the small fixture. -/
theorem load_anomaly_idempotent_witness :
    load_anomaly sProv 150 none = .ok (stdField sAV 150 100 sTimesTail) ∧
    (stdField sAV 150 100 sTimesTail).timestamp = (stdField sAV 150 100 sTimesTail).timestamp ∧
    fieldValues (stdField sAV 150 100 sTimesTail) = fieldValues (stdField sAV 150 100 sTimesTail) := by
  have H := load_anomaly_idempotent sProv 150 none (stdField sAV 150 100 sTimesTail)
    (stdField sAV 150 100 sTimesTail) rfl rfl
  exact ⟨rfl, H.1, H.2.2.2⟩

/-- Counterexample for C9: when the opened dataset is missing the `anom`
variable, the exception raised by `_standardize_anom_field` propagates out of
`load_anomaly` before `ds.close()` (line 111) runs, so the handle acquired on
this failure path is not released — the claim that the handle is released on
every failure path is false. -/
theorem load_anomaly_handle_release_counterexample :
    load_anomaly_handle badProv 0 none =
      (Except.error DataError.dataUnavailable, HandleState.leaked) := rfl

/-- Claim C9 as amended: the only side effect is the temporary dataset
handle; it is released before returning on the success path (for both
`load_anomaly` and `list_available_times`), and no handle is acquired when
the provider cannot be opened — but on a failure after a successful open the
exception propagates before `ds.close()`, so the handle is not released. -/
theorem load_anomaly_handle_release_amended (p : Provider) (d : Int) (ob : Option BoundingBox) :
    (∀ f, (load_anomaly_handle p d ob).1 = .ok f →
      (load_anomaly_handle p d ob).2 = HandleState.released) ∧
    (open_ds p = none → (load_anomaly_handle p d ob).2 = HandleState.notAcquired) ∧
    (∀ ds e, open_ds p = some ds → (load_anomaly_handle p d ob).1 = .error e →
      (load_anomaly_handle p d ob).2 = HandleState.leaked) ∧
    (∀ ts, (list_available_times p).1 = .ok ts →
      (list_available_times p).2 = HandleState.released) := by
  refine ⟨?_, ?_, ?_, ?_⟩
  · intro f hf
    rcases hop : open_ds p with _ | ds
    · simp only [load_anomaly_handle, hop] at hf
      exact Except.noConfusion hf
    · rcases hstd : standardize_anom_field ds d with e | g
      · simp only [load_anomaly_handle, hop, hstd] at hf
        exact Except.noConfusion hf
      · cases ob <;> simp only [load_anomaly_handle, hop, hstd]
  · intro hop
    simp only [load_anomaly_handle, hop]
  · intro ds e hop herr
    rcases hstd : standardize_anom_field ds d with e2 | g
    · simp only [load_anomaly_handle, hop, hstd]
    · cases ob <;> simp only [load_anomaly_handle, hop, hstd] at herr <;>
        exact Except.noConfusion herr
  · intro ts hts
    rcases hop : open_ds p with _ | ds
    · simp only [list_available_times, hop] at hts
      exact Except.noConfusion hts
    · rcases htm : ds.times with _ | l
      · simp only [list_available_times, hop, htm] at hts
        exact Except.noConfusion hts
      · simp only [list_available_times, hop, htm]

/-- Witness for the amended C9: released on a concrete success, leaked on a
concrete failure after a successful open. -/
theorem load_anomaly_handle_release_amended_witness :
    (load_anomaly_handle gProv 20230715 none).1 = .ok (stdField gAV 20230715 19810901 gTimesTail) ∧
    (load_anomaly_handle gProv 20230715 none).2 = HandleState.released ∧
    open_ds badProv = some badDS ∧
    (load_anomaly_handle badProv 0 none).1 = .error DataError.dataUnavailable ∧
    (load_anomaly_handle badProv 0 none).2 = HandleState.leaked ∧
    (list_available_times gProv).1 = .ok (19810901 :: gTimesTail) ∧
    (list_available_times gProv).2 = HandleState.released := by
  refine ⟨rfl, ?_, rfl, rfl, ?_, rfl, ?_⟩
  · exact (load_anomaly_handle_release_amended gProv 20230715 none).1 _ rfl
  · exact (load_anomaly_handle_release_amended badProv 0 none).2.2.1 badDS _ rfl rfl
  · exact (load_anomaly_handle_release_amended badProv 0 none).2.2.2 _ rfl
